import Mathlib

/-!
Verification of the request-authorization middleware pipeline
(`src/middleware.py` of py-lambda-auth-server).

The development shallowly embeds the Python source: the four middleware
classes become an enumerated type of layer types, class-level mutable state
(the `_instance` singleton attribute and the in-place instantiated
`AUTH_CLASSES` lists) becomes an explicit `SysState`, and the orchestration
entry point `process_request` becomes a fuel-indexed state-transition
function that also emits an event log recording every observable step
(trace appends, instance creations, authorizer invocations, process /
delegate calls, router handoff).

External collaborator modules of the repository that are not available
under `src/` (`custom_errors.py`, `utils.py`, `authorizers.py`,
`settings.py`, `router.py`) are modelled from the specification where the
spec pins their behaviour down, and are otherwise abstract parameters of an
`Env` record, matching the spec's "external interfaces" section.
-/

namespace Middleware

/-- The four middleware classes declared in `src/middleware.py`:
`AuthMiddleWare` (line 12), `StackedAuthMiddleWare` (line 111),
`ViewAuthMiddleWare` (line 137), `IdentityAuthMiddleWare` (line 148). -/
inductive LayerType where
  | authMW
  | stackedMW
  | viewMW
  | identityMW
deriving DecidableEq, Repr

/-- Python values stored in request / response dicts: `None`, strings,
integers, pairs (the token-header field holds an indexable pair, see
line 159 `request[AUTH['TOKEN_HEADER']][1]`), and lists of layer classes
(the `middleware_stack` execution trace). -/
inductive PyVal where
  | none
  | str (s : String)
  | int (n : Int)
  | pair (a b : PyVal)
  | layers (cs : List LayerType)
deriving DecidableEq, Repr

/-- Python `x[i]` subscripting of a value by a small index, as used on the
token-header pair at line 159. -/
def PyVal.index : PyVal → Nat → Option PyVal
  | .pair a _, 0 => some a
  | .pair _ b, 1 => some b
  | _, _ => Option.none

/-- Order-preserving association-list lookup (Python dict read). -/
def getA {α β : Type} [DecidableEq α] : List (α × β) → α → Option β
  | [], _ => Option.none
  | (k, v) :: rest, k' => if k = k' then some v else getA rest k'

/-- Order-preserving association-list update (Python dict write: replace in
place when the key exists, append otherwise). -/
def setA {α β : Type} [DecidableEq α] : List (α × β) → α → β → List (α × β)
  | [], k, v => [(k, v)]
  | (k', v') :: rest, k, v => if k' = k then (k, v) :: rest else (k', v') :: setA rest k v

/-- A Python dict with string keys, the shape of request and response
objects (`@param: request: The request DICT object`, line 40). -/
abbrev PyDict := List (String × PyVal)

/-- A delegate's return value: a response dict or Python `None` (the
abstract base `delegate` body is a bare `return`, line 89). -/
abbrev RespV := Option PyDict

/-- C3-linearization (method resolution order) of each class of the source:
`AuthMiddleWare` subclasses `object`, `StackedAuthMiddleWare` and
`ViewAuthMiddleWare` subclass `AuthMiddleWare`, `IdentityAuthMiddleWare`
subclasses `StackedAuthMiddleWare`. -/
def mro : LayerType → List LayerType
  | .authMW => [.authMW]
  | .stackedMW => [.stackedMW, .authMW]
  | .viewMW => [.viewMW, .authMW]
  | .identityMW => [.identityMW, .stackedMW, .authMW]

/-- The names bound in each class body of the source.  Decisive detail for
the abstractness machinery: lines 17 and 118 bind the attribute
`_metaclass_` (single underscores), not the Python metaclass hook
`__metaclass__`, so `abc.ABCMeta` is never installed as a metaclass. -/
def classAttrNames : LayerType → List String
  | .authMW =>
    ["_metaclass_", "ERROR_BUNDLE_KEYS", "AUTH_CLASSES", "process_request",
     "authorize", "process", "delegate", "_init", "_get_authorizers",
     "__getattr__", "__setattr__"]
  | .stackedMW => ["_metaclass_", "STACKED_MIDDLEWARES", "delegate", "_get_stacked_middlewares"]
  | .viewMW => ["AUTH_CLASSES", "process", "delegate"]
  | .identityMW => ["AUTH_CLASSES", "STACKED_MIDDLEWARES", "process", "delegate"]

/-- Python metaclasses relevant here: the default `type`, and `abc.ABCMeta`. -/
inductive PyMetaclass where
  | typeMeta
  | abcMeta
deriving DecidableEq, Repr

/-- The metaclass a class actually gets: `abc.ABCMeta` only if the class
body (or a base's body, metaclasses being inherited) binds the magic name
`__metaclass__` to it.  The source binds `_metaclass_` instead, so every
class keeps the default metaclass `type`. -/
def metaclassOf (c : LayerType) : PyMetaclass :=
  if (mro c).any (fun d => decide ("__metaclass__" ∈ classAttrNames d)) then .abcMeta
  else .typeMeta

/-- Methods declared with the `@abc.abstractmethod` decorator:
`AuthMiddleWare.process` (line 72) and `AuthMiddleWare.delegate` (line 81). -/
def declaredAbstractMethods : LayerType → List String
  | .authMW => ["process", "delegate"]
  | _ => []

/-- Whether MRO resolution of method `m` on class `c` lands on an
`@abc.abstractmethod`-decorated definition (i.e. `m` is unoverridden
abstract). -/
def methodResolvesAbstract (c : LayerType) (m : String) : Bool :=
  match (mro c).find? (fun d => decide (m ∈ classAttrNames d)) with
  | some d => decide (m ∈ declaredAbstractMethods d)
  | Option.none => false

/-- `cls.__abstractmethods__` as `abc.ABCMeta` would compute it: populated
only when the metaclass actually is `ABCMeta`; otherwise the abstract-method
decorations are inert and the set is empty. -/
def abstractmethods (c : LayerType) : List String :=
  match metaclassOf c with
  | .abcMeta => ["process", "delegate"].filter (fun m => methodResolvesAbstract c m)
  | .typeMeta => []

/-- `inspect.isabstract(cls)` (line 46): true iff the type carries the
abstract flag, i.e. `ABCMeta` computed a non-empty `__abstractmethods__`. -/
def isabstract (c : LayerType) : Bool :=
  !(abstractmethods c).isEmpty

/-- The pluggable authorizer classes imported at line 8 from
`authorizers.py` (an external collaborator module): `Authenticator`,
`SafeMethodOnlyAuthorizer`, `APIAuthorizer`. -/
inductive AuthClass where
  | authenticator
  | safeMethodOnly
  | apiAuthorizer
deriving DecidableEq, Repr

/-- One slot of a class-level `AUTH_CLASSES` list.  `_init` (lines 91-94)
mutates the list in place, replacing each authorizer class (`cls`) by an
instance of it (`inst`). -/
inductive AuthEntry where
  | cls (a : AuthClass)
  | inst (a : AuthClass)
deriving DecidableEq, Repr

/-- A middleware instance, identified by the class it instantiates and a
creation counter (so distinct creations are distinguishable). -/
structure MWInstance where
  ofClass : LayerType
  uid : Nat
deriving DecidableEq, Repr

/-- Observable steps of one pipeline run, in execution order:
`enter c` is the trace append performed on entry of `process_request c`
(line 44); `created` / `initRun` record singleton instantiation and the
`_init` call (lines 52-53); `authorizeCall` records one
`authorizer.authorize(request)` invocation with its returned
`(code, detail)` (line 67); `processCall` and `delegateCall` record the
`process` / `delegate` hook calls (lines 58-59); `routeCall` records the
handoff to the external router (line 145). -/
inductive Event where
  | enter (c : LayerType)
  | created (c : LayerType) (uid : Nat)
  | initRun (c : LayerType)
  | authorizeCall (a : AuthClass) (code : Int) (detail : String)
  | processCall (c : LayerType)
  | delegateCall (c : LayerType)
  | routeCall
deriving DecidableEq, Repr

/-- The error bundle produced by `CustomError.bundle`: an ordered mapping
with exactly the four fields of `ERROR_BUNDLE_KEYS` (line 24). -/
structure ErrorBundle where
  middleware_stack : PyVal
  layer : LayerType
  authorizer_error : Option (Int × String)
  request_dump : PyDict
deriving DecidableEq, Repr

/-- Errors surfaced by the pipeline.  The first three are the error classes
imported from `custom_errors.py` (line 6); the rest model builtin Python
exceptions reachable from the embedded code (`KeyError`, `TypeError`,
`RecursionError`). -/
inductive MWError where
  | abstractMiddlewareError (b : ErrorBundle)
  | authError (b : ErrorBundle)
  | improperErrorBundleDump
  | keyError (k : String)
  | typeError
  | attributeError (n : String)
  | recursionLimit
deriving DecidableEq, Repr

/-- `AuthMiddleWare.ERROR_BUNDLE_KEYS` (line 24): the format and keys in
which errors are raised from the class. -/
def AuthMiddleWare.ERROR_BUNDLE_KEYS : List String :=
  ["middleware_stack", "layer", "authorizer_error", "request_dump"]

/-- Modelled from the spec: `CustomError.bundle` lives in
`custom_errors.py`, which is not under `src/`.  Per the spec's ErrorBundle
contract, construction yields the four-field ordered bundle when the
supplied key list is exactly the four required keys in order, and fails
with `ImproperErrorBundleDump` otherwise. -/
def CustomError.bundle (keys : List String) (stackVal : PyVal) (layer : LayerType)
    (authErr : Option (Int × String)) (reqDump : PyDict) : Except MWError ErrorBundle :=
  if keys = AuthMiddleWare.ERROR_BUNDLE_KEYS then
    .ok ⟨stackVal, layer, authErr, reqDump⟩
  else
    .error MWError.improperErrorBundleDump

/-- Modelled from the spec: the external collaborator contracts of
`settings.py` (`SAFE_CODES`, `AUTH['TOKEN_HEADER']`), `authorizers.py`
(each authorizer's pure `authorize(request) -> (code, detail)` decision and
the `Authenticator.is_requesting_authentication(request)` capability
query), and `router.py` (`route(request, response) -> response`).  None of
these modules is under `src/`, and the spec declares their internals out of
scope, so they are abstract parameters. -/
structure Env where
  safeCodes : List Int
  authOutcome : AuthClass → PyDict → Int × String
  routeFn : PyDict → RespV → RespV
  isRequestingAuth : PyDict → Bool
  tokenHeader : String

/-- Modelled from the spec: `RequestOp.appendParam` lives in `utils.py`,
which is not under `src/`.  Per spec section 4.1 step 1, it appends the
layer type to the request's named ordered list field, creating the list if
absent. -/
def RequestOp.appendParam (req : PyDict) (key : String) (c : LayerType) : PyDict :=
  match getA req key with
  | some (PyVal.layers cs) => setA req key (PyVal.layers (cs ++ [c]))
  | _ => setA req key (PyVal.layers [c])

/-- The class-level mutable state of the process: for each class its
`_instance` attribute where set (`setattr(cls, '_instance', ...)`,
lines 50-52 — absent, `None`, or an instance), the current contents of each
declared `AUTH_CLASSES` list (mutated in place by `_init`), and the next
instance-creation counter. -/
structure SysState where
  instAttr : List (LayerType × Option MWInstance)
  authLists : List (LayerType × List AuthEntry)
  nextUid : Nat
deriving DecidableEq, Repr

/-- The state at interpreter start: no `_instance` attribute anywhere, and
the `AUTH_CLASSES` lists as declared in the class bodies (lines 28, 139,
150); `StackedAuthMiddleWare` declares none and inherits
`AuthMiddleWare`'s. -/
def SysState.initial : SysState :=
  { instAttr := [],
    authLists :=
      [(LayerType.authMW, []),
       (LayerType.viewMW, [AuthEntry.cls AuthClass.safeMethodOnly, AuthEntry.cls AuthClass.apiAuthorizer]),
       (LayerType.identityMW, [AuthEntry.cls AuthClass.authenticator])],
    nextUid := 0 }

/-- Which classes bind `AUTH_CLASSES` in their own body. -/
def declaresAuthClasses : LayerType → Bool
  | .authMW => true
  | .stackedMW => false
  | .viewMW => true
  | .identityMW => true

/-- The class whose `AUTH_CLASSES` binding an attribute read on `c`
resolves to (first declarer along the MRO). -/
def authClassesOwner (c : LayerType) : LayerType :=
  ((mro c).find? declaresAuthClasses).getD c

/-- `self.AUTH_CLASSES` as read by `_get_authorizers` (line 98) and `_init`
(line 93): the current contents of the owning class's list. -/
def getAuthEntries (st : SysState) (c : LayerType) : List AuthEntry :=
  (getA st.authLists (authClassesOwner c)).getD []

/-- Which classes bind `STACKED_MIDDLEWARES` in their own body
(lines 121, 151). -/
def declaresStackedMW : LayerType → Bool
  | .stackedMW => true
  | .identityMW => true
  | _ => false

/-- The declared `STACKED_MIDDLEWARES` lists (never mutated). -/
def STACKED_MIDDLEWARES : LayerType → List LayerType
  | .stackedMW => []
  | .identityMW => [.viewMW]
  | _ => []

/-- `self._get_stacked_middlewares()` (lines 132-134): resolve
`STACKED_MIDDLEWARES` along the instance's class MRO. -/
def getStackedMW (c : LayerType) : List LayerType :=
  STACKED_MIDDLEWARES (((mro c).find? declaresStackedMW).getD c)

/-- `hasattr(cls, '_instance')` (line 49): attribute lookup on a class
searches the whole MRO. -/
def hasattrInstance (st : SysState) (c : LayerType) : Bool :=
  (mro c).any (fun d => (getA st.instAttr d).isSome)

/-- `cls._instance` read (lines 51, 53, 56, 58, 59): value of the first
class along the MRO that has the attribute. -/
def getattrInstance (st : SysState) (c : LayerType) : Option (Option MWInstance) :=
  (mro c).findSome? (fun d => getA st.instAttr d)

/-- `setattr(cls, '_instance', v)` / `cls._instance = v` (lines 50, 52):
writes the attribute on `cls` itself. -/
def setInstAttr (st : SysState) (c : LayerType) (v : Option MWInstance) : SysState :=
  { st with instAttr := setA st.instAttr c v }

/-- The in-place loop of `_init` (lines 91-94): replace each entry of
`AUTH_CLASSES` with `entry()` in order.  Calling an already-instantiated
entry would raise a `TypeError` (instances are not callable), leaving that
entry and the rest of the list untouched; entries before the first bad one
were already replaced. -/
def initAuthEntriesGo : List AuthEntry → List AuthEntry × Option MWError
  | [] => ([], Option.none)
  | AuthEntry.cls a :: rest =>
    let r := initAuthEntriesGo rest
    (AuthEntry.inst a :: r.1, r.2)
  | AuthEntry.inst a :: rest => (AuthEntry.inst a :: rest, some MWError.typeError)

/-- The loop body of `AuthMiddleWare.authorize` (lines 66-70): iterate the
authorizer list in order; at the first result whose code is outside the
safe-code set, bundle `(request['middleware_stack'], self.__class__,
authorized, request)` and raise `AuthError`.  Calling `.authorize` on a
still-uninstantiated class entry would raise a `TypeError` (unbound
method). -/
def authorizeGo (env : Env) (selfClass : LayerType) (req : PyDict) :
    List AuthEntry → List Event × Except MWError Unit
  | [] => ([], .ok ())
  | AuthEntry.cls _ :: _ => ([], .error MWError.typeError)
  | AuthEntry.inst a :: rest =>
    let r := env.authOutcome a req
    if r.1 ∈ env.safeCodes then
      let t := authorizeGo env selfClass req rest
      (Event.authorizeCall a r.1 r.2 :: t.1, t.2)
    else
      ([Event.authorizeCall a r.1 r.2],
       match getA req "middleware_stack" with
       | Option.none => .error (MWError.keyError "middleware_stack")
       | some v =>
         match CustomError.bundle AuthMiddleWare.ERROR_BUNDLE_KEYS v selfClass (some r) req with
         | .ok b => .error (MWError.authError b)
         | .error e => .error e)

/-- `AuthMiddleWare.authorize` (lines 61-70): run the loop over
`self._get_authorizers()`, i.e. the current class-level `AUTH_CLASSES` of
the instance's class.  Pure in the state; returns the emitted authorizer
events and the outcome. -/
def AuthMiddleWare.authorize (env : Env) (self : MWInstance) (st : SysState) (req : PyDict) :
    List Event × Except MWError Unit :=
  authorizeGo env self.ofClass req (getAuthEntries st self.ofClass)

/-- The result of one `process_request` invocation: the (mutated) request,
the class-level state, the emitted event log, and either the returned
response or the propagated error. -/
structure StepResult where
  req : PyDict
  st : SysState
  log : List Event
  res : Except MWError RespV

/-- The type of the orchestration entry point as seen by delegation code. -/
abbrev Entry := LayerType → PyDict → RespV → SysState → StepResult

/-- The loop of `StackedAuthMiddleWare.delegate` (lines 128-130): run each
stacked sub-layer through the entry point, rebinding the response to each
result in turn; an error propagates with all mutations so far kept. -/
def runStack (entry : Entry) : List LayerType → PyDict → RespV → SysState → StepResult
  | [], req, resp, st => ⟨req, st, [], .ok resp⟩
  | c :: rest, req, resp, st =>
    let r := entry c req resp st
    match r.res with
    | .error e => ⟨r.req, r.st, r.log, .error e⟩
    | .ok resp' =>
      let r2 := runStack entry rest r.req resp' r.st
      ⟨r2.req, r2.st, r.log ++ r2.log, r2.res⟩

/-- `instance.delegate(request, response)` dispatched on the instance's
class (each class declares its own `delegate`):
`AuthMiddleWare.delegate` (lines 81-89) is a bare `return`, yielding `None`;
`StackedAuthMiddleWare.delegate` (lines 123-130) runs the stacked loop;
`ViewAuthMiddleWare.delegate` (lines 144-145) hands off to the router;
`IdentityAuthMiddleWare.delegate` (lines 156-161) short-circuits with the
token copy when the request asks for authentication, else falls through to
`super().delegate`, the stacked loop over its own `STACKED_MIDDLEWARES`. -/
def delegateImpl (env : Env) (entry : Entry) (self : MWInstance)
    (req : PyDict) (resp : RespV) (st : SysState) : StepResult :=
  match self.ofClass with
  | .authMW => ⟨req, st, [Event.delegateCall .authMW], .ok Option.none⟩
  | .viewMW => ⟨req, st, [Event.delegateCall .viewMW, Event.routeCall], .ok (env.routeFn req resp)⟩
  | .stackedMW =>
    let r := runStack entry (getStackedMW .stackedMW) req resp st
    ⟨r.req, r.st, Event.delegateCall .stackedMW :: r.log, r.res⟩
  | .identityMW =>
    if env.isRequestingAuth req then
      match getA req env.tokenHeader with
      | Option.none => ⟨req, st, [Event.delegateCall .identityMW], .error (MWError.keyError env.tokenHeader)⟩
      | some v =>
        match v.index 1 with
        | Option.none => ⟨req, st, [Event.delegateCall .identityMW], .error MWError.typeError⟩
        | some tok =>
          match resp with
          | Option.none => ⟨req, st, [Event.delegateCall .identityMW], .error MWError.typeError⟩
          | some r0 => ⟨req, st, [Event.delegateCall .identityMW], .ok (some (setA r0 env.tokenHeader tok))⟩
    else
      let r := runStack entry (getStackedMW .identityMW) req resp st
      ⟨r.req, r.st, Event.delegateCall .identityMW :: r.log, r.res⟩

/-- Lines 56-59 of `process_request`, once the singleton instance is at
hand: authorize (errors propagate uncaught, line 55), then the `process`
hook (every implementation in the source is a no-op `return`), then
`delegate`, whose result is returned.  `pre` is the log accumulated by the
earlier steps of the call. -/
def afterInstance (env : Env) (entry : Entry) (i : MWInstance)
    (req : PyDict) (resp : RespV) (st : SysState) (pre : List Event) : StepResult :=
  let a := AuthMiddleWare.authorize env i st req
  match a.2 with
  | .error e => ⟨req, st, pre ++ a.1, .error e⟩
  | .ok _ =>
    let d := delegateImpl env entry i req resp st
    ⟨d.req, d.st, pre ++ a.1 ++ Event.processCall i.ofClass :: d.log, d.res⟩

/-- `AuthMiddleWare.process_request` (lines 30-59), fuel-indexed to bound
the Python call stack of recursive delegations: append the class to the
request's `middleware_stack` (line 44); raise `AbstractMiddlewareError` if
the class is abstract (lines 46-48); ensure the `_instance` class attribute
exists and lazily create the singleton, running `_init` on first creation
(lines 49-53); then authorize / process / delegate (lines 56-59). -/
def processRequest (env : Env) : Nat → LayerType → PyDict → RespV → SysState → StepResult
  | 0, _, req, _, st => ⟨req, st, [], .error MWError.recursionLimit⟩
  | fuel+1, cls, req0, resp, st0 =>
    let req := RequestOp.appendParam req0 "middleware_stack" cls
    if isabstract cls then
      match CustomError.bundle AuthMiddleWare.ERROR_BUNDLE_KEYS
          ((getA req "middleware_stack").getD PyVal.none) cls Option.none req with
      | .ok b => ⟨req, st0, [Event.enter cls], .error (MWError.abstractMiddlewareError b)⟩
      | .error e => ⟨req, st0, [Event.enter cls], .error e⟩
    else
      let st1 := if hasattrInstance st0 cls then st0 else setInstAttr st0 cls Option.none
      match getattrInstance st1 cls with
      | some (some i) =>
        afterInstance env (fun c r rp s => processRequest env fuel c r rp s) i req resp st1
          [Event.enter cls]
      | _ =>
        let i : MWInstance := ⟨cls, st1.nextUid⟩
        let st2 : SysState :=
          { instAttr := setA st1.instAttr cls (some i),
            authLists := st1.authLists,
            nextUid := st1.nextUid + 1 }
        let r := initAuthEntriesGo (getAuthEntries st2 cls)
        let st3 : SysState := { st2 with authLists := setA st2.authLists (authClassesOwner cls) r.1 }
        match r.2 with
        | some e =>
          ⟨req, st3, [Event.enter cls, Event.created cls i.uid, Event.initRun cls], .error e⟩
        | Option.none =>
          afterInstance env (fun c r2 rp s => processRequest env fuel c r2 rp s) i req resp st3
            [Event.enter cls, Event.created cls i.uid, Event.initRun cls]

/-- The execution trace field of a request. -/
def stackOf (req : PyDict) : List LayerType :=
  match getA req "middleware_stack" with
  | some (PyVal.layers cs) => cs
  | _ => []

/-- Layer types of the `enter` events of a log, in order. -/
def entersOf (log : List Event) : List LayerType :=
  log.filterMap fun e =>
    match e with
    | Event.enter c => some c
    | _ => Option.none

/-- Creation counters of the `created c` events of a log, in order. -/
def createdUidsOf (log : List Event) (c : LayerType) : List Nat :=
  log.filterMap fun e =>
    match e with
    | Event.created c' u => if c' = c then some u else Option.none
    | _ => Option.none

/-- Number of `initRun c` events of a log. -/
def initRunsOf (log : List Event) (c : LayerType) : Nat :=
  (log.filterMap fun e =>
    match e with
    | Event.initRun c' => if c' = c then some () else Option.none
    | _ => Option.none).length

/-- All class-body attribute names visible on instances of `c` (its own and
its bases' class attributes). -/
def classAttrsOf (c : LayerType) : List String :=
  (mro c).foldr (fun d acc => classAttrNames d ++ acc) []

/-- The attribute-read protocol for `AuthMiddleWare` instances, fuel-indexed
for Python's recursion limit: instance `__dict__` first (`names` lists the
attributes it holds — nothing in the program can put one there), then class
attributes along the MRO, then the `__getattr__` hook (lines 100-105),
whose body `self.__dict[name]` first resolves the mangled attribute
`_AuthMiddleWare__dict` through this very protocol again.  Were that
lookup ever to succeed, a missing key in the dict would surface as the
`AttributeError` of lines 103-105; the binding never exists, so that branch
is unreachable. -/
def instanceGetattrStatus (c : LayerType) (names : List String) :
    Nat → String → Except MWError Unit
  | 0, _ => .error MWError.recursionLimit
  | fuel+1, name =>
    if name ∈ names ∨ name ∈ classAttrsOf c then .ok ()
    else
      match instanceGetattrStatus c names fuel "_AuthMiddleWare__dict" with
      | .error e => .error e
      | .ok _ => .error (MWError.attributeError name)

/-- The attribute-write protocol for `AuthMiddleWare` instances: the
catch-all `__setattr__` (lines 107-108) does `self.__dict[name] = value`,
which first reads the mangled attribute `_AuthMiddleWare__dict` through the
full read protocol. -/
def instanceSetattrStatus (c : LayerType) (names : List String)
    (fuel : Nat) (_name : String) : Except MWError Unit :=
  match instanceGetattrStatus c names fuel "_AuthMiddleWare__dict" with
  | .error e => .error e
  | .ok _ => .ok ()

/-- A concrete environment for witness checks: code 0 is the only safe
code, the API authorizer rejects with 403, the others accept, the token
header is `HTTP_AUTH_TOKEN`, and a request asks for authentication by
carrying `req_auth = 1`. -/
def sampleEnv : Env :=
  { safeCodes := [0],
    authOutcome := fun a _ =>
      match a with
      | AuthClass.apiAuthorizer => (403, "forbidden")
      | _ => (0, "ok"),
    routeFn := fun _ _ => some [("routed", PyVal.int 1)],
    isRequestingAuth := fun r => decide (getA r "req_auth" = some (PyVal.int 1)),
    tokenHeader := "HTTP_AUTH_TOKEN" }

/-- A concrete entry point for witness checks of the delegation
combinators (which are parametric in the entry point). -/
def sampleEntry : Entry := fun c req resp st => ⟨req, st, [Event.enter c], .ok resp⟩

/-- A request carrying a token pair and the authentication-request flag. -/
def reqA : PyDict :=
  [("HTTP_AUTH_TOKEN", PyVal.pair (PyVal.str "Token") (PyVal.str "abc123")),
   ("req_auth", PyVal.int 1)]

/-- A request carrying a token pair but not requesting authentication. -/
def reqB : PyDict :=
  [("HTTP_AUTH_TOKEN", PyVal.pair (PyVal.str "Token") (PyVal.str "abc123"))]

/-- A request that already carries an execution trace. -/
def reqStacked : PyDict := [("middleware_stack", PyVal.layers [LayerType.viewMW])]

/-- The `authorizeCall` event that invoking authorizer `a` on `req` emits. -/
def callEv (env : Env) (req : PyDict) (a : AuthClass) : Event :=
  Event.authorizeCall a (env.authOutcome a req).1 (env.authOutcome a req).2

/-- The error `authorize` raises at an unsafe authorizer `b`: an
`AuthError` carrying the bundle of lines 69-70 when the request has an
execution trace, and the `KeyError` of the `request['middleware_stack']`
subscript otherwise. -/
def failRes (env : Env) (selfClass : LayerType) (req : PyDict) (b : AuthClass) :
    Except MWError Unit :=
  match getA req "middleware_stack" with
  | Option.none => .error (MWError.keyError "middleware_stack")
  | some v => .error (MWError.authError ⟨v, selfClass, some (env.authOutcome b req), req⟩)

theorem getA_setA_self {α β : Type} [DecidableEq α] (l : List (α × β)) (k : α) (v : β) :
    getA (setA l k v) k = some v := by
  induction l with
  | nil => simp [getA, setA]
  | cons hd tl ih =>
    obtain ⟨k', v'⟩ := hd
    by_cases h : k' = k
    · subst h
      simp [getA, setA]
    · simp [getA, setA, h, ih]

theorem getA_setA_ne {α β : Type} [DecidableEq α] (l : List (α × β)) (k k' : α) (v : β)
    (h : k ≠ k') : getA (setA l k v) k' = getA l k' := by
  induction l with
  | nil => simp [getA, setA, h]
  | cons hd tl ih =>
    obtain ⟨k0, v0⟩ := hd
    by_cases h0 : k0 = k
    · subst h0
      simp [getA, setA, h]
    · simp [getA, setA, h0, ih]

theorem stackOf_appendParam (req : PyDict) (c : LayerType) :
    stackOf (RequestOp.appendParam req "middleware_stack" c) = stackOf req ++ [c] := by
  unfold stackOf RequestOp.appendParam
  cases h : getA req "middleware_stack" with
  | none => simp [h, getA_setA_self]
  | some v =>
    cases v <;> simp [h, getA_setA_self]

theorem authorizeGo_log_calls (env : Env) (selfClass : LayerType) (req : PyDict) :
    ∀ entries, ∀ e ∈ (authorizeGo env selfClass req entries).1,
      ∃ a cd dt, e = Event.authorizeCall a cd dt := by
  intro entries
  induction entries with
  | nil => simp [authorizeGo]
  | cons hd tl ih =>
    cases hd with
    | cls a => simp [authorizeGo]
    | inst a =>
      by_cases h : (env.authOutcome a req).1 ∈ env.safeCodes
      · simp only [authorizeGo, if_pos h]
        intro e he
        rcases List.mem_cons.mp he with rfl | he'
        · exact ⟨_, _, _, rfl⟩
        · exact ih e he'
      · simp only [authorizeGo, if_neg h]
        intro e he
        rcases List.mem_cons.mp he with rfl | he'
        · exact ⟨_, _, _, rfl⟩
        · simp at he'

theorem entersOf_of_calls {l : List Event}
    (h : ∀ e ∈ l, ∃ a cd dt, e = Event.authorizeCall a cd dt) : entersOf l = [] := by
  induction l with
  | nil => rfl
  | cons hd tl ih =>
    obtain ⟨a, cd, dt, rfl⟩ := h hd (List.mem_cons_self hd tl)
    simpa [entersOf, List.filterMap_cons] using ih fun e he => h e (List.mem_cons_of_mem _ he)

theorem createdUidsOf_of_calls {l : List Event} (c : LayerType)
    (h : ∀ e ∈ l, ∃ a cd dt, e = Event.authorizeCall a cd dt) : createdUidsOf l c = [] := by
  induction l with
  | nil => rfl
  | cons hd tl ih =>
    obtain ⟨a, cd, dt, rfl⟩ := h hd (List.mem_cons_self hd tl)
    simpa [createdUidsOf, List.filterMap_cons] using ih fun e he => h e (List.mem_cons_of_mem _ he)

theorem initRunsOf_of_calls {l : List Event} (c : LayerType)
    (h : ∀ e ∈ l, ∃ a cd dt, e = Event.authorizeCall a cd dt) : initRunsOf l c = 0 := by
  induction l with
  | nil => rfl
  | cons hd tl ih =>
    obtain ⟨a, cd, dt, rfl⟩ := h hd (List.mem_cons_self hd tl)
    simpa [initRunsOf, List.filterMap_cons] using ih fun e he => h e (List.mem_cons_of_mem _ he)

theorem authorizeGo_all_safe (env : Env) (selfClass : LayerType) (req : PyDict) :
    ∀ as : List AuthClass, (∀ a ∈ as, (env.authOutcome a req).1 ∈ env.safeCodes) →
      authorizeGo env selfClass req (as.map AuthEntry.inst) = (as.map (callEv env req), .ok ()) := by
  intro as
  induction as with
  | nil => intro _; rfl
  | cons a tl ih =>
    intro h
    have ha : (env.authOutcome a req).1 ∈ env.safeCodes := h a (List.mem_cons_self a tl)
    have ht := ih fun x hx => h x (List.mem_cons_of_mem _ hx)
    simp [authorizeGo, if_pos ha, ht, callEv]

theorem authorizeGo_fail_fast (env : Env) (selfClass : LayerType) (req : PyDict) :
    ∀ (pre : List AuthClass) (b : AuthClass) (post : List AuthEntry),
      (∀ a ∈ pre, (env.authOutcome a req).1 ∈ env.safeCodes) →
      (env.authOutcome b req).1 ∉ env.safeCodes →
      authorizeGo env selfClass req (pre.map AuthEntry.inst ++ AuthEntry.inst b :: post) =
        (pre.map (callEv env req) ++ [callEv env req b], failRes env selfClass req b) := by
  intro pre
  induction pre with
  | nil =>
    intro b post _ hb
    simp only [List.map_nil, List.nil_append]
    simp only [authorizeGo, if_neg hb]
    unfold failRes
    cases h : getA req "middleware_stack" with
    | none => simp [callEv]
    | some v => simp [callEv, CustomError.bundle]
  | cons a tl ih =>
    intro b post hpre hb
    have ha : (env.authOutcome a req).1 ∈ env.safeCodes := hpre a (List.mem_cons_self a tl)
    have ht := ih b post (fun x hx => hpre x (List.mem_cons_of_mem _ hx)) hb
    simp [authorizeGo, if_pos ha, ht, callEv]

/-- The fail-fast contract of `authorize`, claim C3: over a fully
instantiated authorizer list, if every authorizer returns a safe code the
whole list is invoked and nothing is raised; and for a list whose first
unsafe authorizer is `b`, exactly the safe ones before `b` and `b` itself
are invoked (nothing after `b`) and an `AuthError` is raised. -/
def C3Prop (env : Env) (selfClass : LayerType) (req : PyDict) (v : PyVal)
    (as pre : List AuthClass) (b : AuthClass) (post : List AuthEntry) : Prop :=
  authorizeGo env selfClass req (as.map AuthEntry.inst) = (as.map (callEv env req), .ok ()) ∧
  authorizeGo env selfClass req (pre.map AuthEntry.inst ++ AuthEntry.inst b :: post) =
    (pre.map (callEv env req) ++ [callEv env req b],
     .error (MWError.authError ⟨v, selfClass, some (env.authOutcome b req), req⟩))

/-- C3: during `authorize` the layer's authorizer list is iterated in
order; authorization fails with `AuthError` at the first authorizer whose
code is outside the configured safe-code set and no later authorizer is
invoked; if every authorizer returns a safe code, nothing is raised. -/
theorem claim_C3 (env : Env) (selfClass : LayerType) (req : PyDict) (v : PyVal)
    (as pre : List AuthClass) (b : AuthClass) (post : List AuthEntry)
    (hall : ∀ a ∈ as, (env.authOutcome a req).1 ∈ env.safeCodes)
    (hpre : ∀ a ∈ pre, (env.authOutcome a req).1 ∈ env.safeCodes)
    (hb : (env.authOutcome b req).1 ∉ env.safeCodes)
    (hv : getA req "middleware_stack" = some v) :
    C3Prop env selfClass req v as pre b post := by
  refine ⟨authorizeGo_all_safe env selfClass req as hall, ?_⟩
  rw [authorizeGo_fail_fast env selfClass req pre b post hpre hb]
  unfold failRes
  rw [hv]

/-- Closed check of claim C3 at a concrete input. -/
theorem claim_C3_witness :
    C3Prop sampleEnv LayerType.viewMW reqStacked (PyVal.layers [LayerType.viewMW])
      [AuthClass.safeMethodOnly] [AuthClass.safeMethodOnly] AuthClass.apiAuthorizer [] :=
  claim_C3 sampleEnv LayerType.viewMW reqStacked (PyVal.layers [LayerType.viewMW])
    [AuthClass.safeMethodOnly] [AuthClass.safeMethodOnly] AuthClass.apiAuthorizer []
    (by decide) (by decide) (by decide) (by decide)

/-- The bundle contents of the `AuthError` raised at the first unsafe
authorizer, claim C4. -/
def C4Prop (env : Env) (selfClass : LayerType) (req : PyDict) (v : PyVal)
    (pre : List AuthClass) (b : AuthClass) (post : List AuthEntry) : Prop :=
  authorizeGo env selfClass req (pre.map AuthEntry.inst ++ AuthEntry.inst b :: post) =
    (pre.map (callEv env req) ++ [callEv env req b],
     .error (MWError.authError ⟨v, selfClass, some (env.authOutcome b req), req⟩))

/-- C4: when an authorizer returns an unsafe code, the raised `AuthError`
bundles the request's execution trace at failure time, the class of the
detecting layer, exactly the failing `(code, detail)` pair, and the
request itself. -/
theorem claim_C4 (env : Env) (selfClass : LayerType) (req : PyDict) (v : PyVal)
    (pre : List AuthClass) (b : AuthClass) (post : List AuthEntry)
    (hpre : ∀ a ∈ pre, (env.authOutcome a req).1 ∈ env.safeCodes)
    (hb : (env.authOutcome b req).1 ∉ env.safeCodes)
    (hv : getA req "middleware_stack" = some v) :
    C4Prop env selfClass req v pre b post := by
  unfold C4Prop
  rw [authorizeGo_fail_fast env selfClass req pre b post hpre hb]
  unfold failRes
  rw [hv]

/-- Closed check of claim C4 at a concrete input. -/
theorem claim_C4_witness :
    C4Prop sampleEnv LayerType.viewMW reqStacked (PyVal.layers [LayerType.viewMW])
      [AuthClass.safeMethodOnly] AuthClass.apiAuthorizer [] :=
  claim_C4 sampleEnv LayerType.viewMW reqStacked (PyVal.layers [LayerType.viewMW])
    [AuthClass.safeMethodOnly] AuthClass.apiAuthorizer []
    (by decide) (by decide) (by decide)

/-- C5: constructing an ErrorBundle with any key list other than exactly
the four required keys in order fails with `ImproperErrorBundleDump`;
construction with exactly those keys succeeds. -/
theorem claim_C5 (keys : List String) (v : PyVal) (c : LayerType)
    (a : Option (Int × String)) (r : PyDict) :
    (keys ≠ AuthMiddleWare.ERROR_BUNDLE_KEYS →
      CustomError.bundle keys v c a r = .error MWError.improperErrorBundleDump) ∧
    CustomError.bundle AuthMiddleWare.ERROR_BUNDLE_KEYS v c a r = .ok ⟨v, c, a, r⟩ :=
  ⟨fun h => by simp [CustomError.bundle, h], by simp [CustomError.bundle]⟩

/-- Closed check of claim C5 at a concrete input. -/
theorem claim_C5_witness :
    CustomError.bundle ["middleware_stack", "layer"] (PyVal.layers []) LayerType.authMW
        Option.none [] = .error MWError.improperErrorBundleDump ∧
    CustomError.bundle AuthMiddleWare.ERROR_BUNDLE_KEYS (PyVal.layers []) LayerType.authMW
        Option.none [] = .ok ⟨PyVal.layers [], LayerType.authMW, Option.none, []⟩ :=
  ⟨(claim_C5 ["middleware_stack", "layer"] (PyVal.layers []) LayerType.authMW Option.none []).1
      (by decide),
   (claim_C5 ["middleware_stack", "layer"] (PyVal.layers []) LayerType.authMW Option.none []).2⟩

theorem mangled_not_classAttr (c : LayerType) : "_AuthMiddleWare__dict" ∉ classAttrsOf c := by
  cases c <;> decide

theorem instanceGetattr_mangled (c : LayerType) (names : List String)
    (h : "_AuthMiddleWare__dict" ∉ names) :
    ∀ fuel, instanceGetattrStatus c names fuel "_AuthMiddleWare__dict" =
      .error MWError.recursionLimit := by
  intro fuel
  induction fuel with
  | zero => rfl
  | succ n ih =>
    have hc := mangled_not_classAttr c
    simp only [instanceGetattrStatus]
    rw [if_neg (by simp [h, hc]), ih]

/-- C10: on `AuthMiddleWare` instances, every attribute assignment through
the catch-all `__setattr__` errors (never stores), and every read of an
attribute found neither in the instance dict nor among the class attributes
errors (never returns a value): both paths dereference the never-bound
private `__dict`, whose lookup recurses through `__getattr__` up to the
recursion limit. -/
theorem claim_C10 (c : LayerType) (names : List String) (fuel : Nat) (name : String)
    (h : "_AuthMiddleWare__dict" ∉ names) :
    instanceSetattrStatus c names fuel name = .error MWError.recursionLimit ∧
    (name ∉ names → name ∉ classAttrsOf c →
      instanceGetattrStatus c names fuel name = .error MWError.recursionLimit) := by
  constructor
  · unfold instanceSetattrStatus
    rw [instanceGetattr_mangled c names h fuel]
  · intro h1 h2
    cases fuel with
    | zero => rfl
    | succ n =>
      simp only [instanceGetattrStatus]
      rw [if_neg (by simp [h1, h2]), instanceGetattr_mangled c names h n]

/-- Closed check of claim C10 at a concrete input. -/
theorem claim_C10_witness :
    instanceSetattrStatus LayerType.authMW [] 5 "view" = .error MWError.recursionLimit ∧
    instanceGetattrStatus LayerType.authMW [] 5 "view" = .error MWError.recursionLimit :=
  ⟨(claim_C10 LayerType.authMW [] 5 "view" (by decide)).1,
   (claim_C10 LayerType.authMW [] 5 "view" (by decide)).2 (by decide) (by decide)⟩

/-- C1 (code-bug evidence): line 17 binds `_metaclass_`, not the metaclass
hook `__metaclass__`, so `abc.ABCMeta` is never installed, no class in the
file is abstract in Python's eyes (`inspect.isabstract` is false
everywhere), and the guard of lines 46-48 can never fire.  Invoking the
entry point on the intended-abstract base `AuthMiddleWare` does not raise
`AbstractMiddlewareError`: it instantiates the base class, runs its empty
authorizer list, the no-op `process`, and the bare-`return` `delegate`, and
returns `None`. -/
theorem claim_C1 :
    ("_metaclass_" ∈ classAttrNames LayerType.authMW ∧
     "__metaclass__" ∉ classAttrNames LayerType.authMW) ∧
    (∀ c, isabstract c = false) ∧
    (processRequest sampleEnv 1 LayerType.authMW [] Option.none SysState.initial).res =
      .ok Option.none ∧
    (processRequest sampleEnv 1 LayerType.authMW [] Option.none SysState.initial).log =
      [Event.enter LayerType.authMW, Event.created LayerType.authMW 0,
       Event.initRun LayerType.authMW, Event.processCall LayerType.authMW,
       Event.delegateCall LayerType.authMW] :=
  ⟨⟨by decide, by decide⟩, fun c => by cases c <;> rfl, rfl, rfl⟩

theorem runStack_cons_err (entry : Entry) (s : LayerType) (tl : List LayerType)
    (req : PyDict) (resp : RespV) (st : SysState) (e : MWError)
    (hres : (entry s req resp st).res = .error e) :
    runStack entry (s :: tl) req resp st =
      ⟨(entry s req resp st).req, (entry s req resp st).st,
       (entry s req resp st).log, .error e⟩ := by
  simp only [runStack]
  rw [hres]

theorem runStack_cons_ok (entry : Entry) (s : LayerType) (tl : List LayerType)
    (req : PyDict) (resp : RespV) (st : SysState) (u : RespV)
    (hres : (entry s req resp st).res = .ok u) :
    runStack entry (s :: tl) req resp st =
      ⟨(runStack entry tl (entry s req resp st).req u (entry s req resp st).st).req,
       (runStack entry tl (entry s req resp st).req u (entry s req resp st).st).st,
       (entry s req resp st).log ++
         (runStack entry tl (entry s req resp st).req u (entry s req resp st).st).log,
       (runStack entry tl (entry s req resp st).req u (entry s req resp st).st).res⟩ := by
  simp only [runStack]
  rw [hres]

theorem runStack_snoc (entry : Entry) :
    ∀ (subs : List LayerType) (c : LayerType) (req : PyDict) (resp : RespV) (st : SysState)
      (req' : PyDict) (st' : SysState) (log' : List Event) (resp' : RespV),
      runStack entry subs req resp st = ⟨req', st', log', .ok resp'⟩ →
      runStack entry (subs ++ [c]) req resp st =
        ⟨(entry c req' resp' st').req, (entry c req' resp' st').st,
         log' ++ (entry c req' resp' st').log, (entry c req' resp' st').res⟩ := by
  intro subs
  induction subs with
  | nil =>
    intro c req resp st req' st' log' resp' h
    simp only [runStack] at h
    obtain ⟨h1, h2, h3, h4⟩ := StepResult.mk.injEq .. ▸ h
    injection h4 with h4
    subst h1; subst h2; subst h4
    rw [← h3]
    simp only [List.nil_append]
    cases hres : (entry c req resp st).res with
    | error e => rw [runStack_cons_err entry c [] req resp st e hres]
    | ok u => rw [runStack_cons_ok entry c [] req resp st u hres]; simp [runStack]
  | cons s tl ih =>
    intro c req resp st req' st' log' resp' h
    cases hres : (entry s req resp st).res with
    | error e =>
      rw [runStack_cons_err entry s tl req resp st e hres] at h
      exact absurd (congrArg StepResult.res h) (by simp)
    | ok u =>
      rw [runStack_cons_ok entry s tl req resp st u hres] at h
      obtain ⟨h1, h2, h3, h4⟩ := StepResult.mk.injEq .. ▸ h
      have heta : runStack entry tl (entry s req resp st).req u (entry s req resp st).st =
          ⟨(runStack entry tl (entry s req resp st).req u (entry s req resp st).st).req,
           (runStack entry tl (entry s req resp st).req u (entry s req resp st).st).st,
           (runStack entry tl (entry s req resp st).req u (entry s req resp st).st).log,
           (runStack entry tl (entry s req resp st).req u (entry s req resp st).st).res⟩ := rfl
      rw [h1, h2, h4] at heta
      have hih := ih c (entry s req resp st).req u (entry s req resp st).st req' st'
        (runStack entry tl (entry s req resp st).req u (entry s req resp st).st).log resp' heta
      rw [show (s :: tl) ++ [c] = s :: (tl ++ [c]) from rfl,
          runStack_cons_ok entry s (tl ++ [c]) req resp st u hres, hih, ← h3]
      simp [List.append_assoc]

/-- The default stacked delegation, claim C7: the empty stack returns the
response passed in; appending one more sub-layer to a successful chain
feeds the chain's final request/response/state into the entry point on that
sub-layer and the overall result is that last call's result; and the
stacked layer's `delegate` is exactly this loop over its
`STACKED_MIDDLEWARES`. -/
def C7Prop (env : Env) (entry : Entry) (u : Nat) (subs : List LayerType) (c : LayerType)
    (req : PyDict) (resp : RespV) (st : SysState)
    (req' : PyDict) (st' : SysState) (log' : List Event) (resp' : RespV) : Prop :=
  runStack entry [] req resp st = ⟨req, st, [], .ok resp⟩ ∧
  runStack entry (subs ++ [c]) req resp st =
    ⟨(entry c req' resp' st').req, (entry c req' resp' st').st,
     log' ++ (entry c req' resp' st').log, (entry c req' resp' st').res⟩ ∧
  delegateImpl env entry ⟨LayerType.stackedMW, u⟩ req resp st =
    ⟨(runStack entry (getStackedMW LayerType.stackedMW) req resp st).req,
     (runStack entry (getStackedMW LayerType.stackedMW) req resp st).st,
     Event.delegateCall LayerType.stackedMW ::
       (runStack entry (getStackedMW LayerType.stackedMW) req resp st).log,
     (runStack entry (getStackedMW LayerType.stackedMW) req resp st).res⟩

/-- C7: a stacked layer's default `delegate` runs its ordered sub-layer
list in sequence through the entry point, threading the current request and
the previous sub-layer's response (starting from the response passed in),
and returns the response produced by the last sub-layer. -/
theorem claim_C7 (env : Env) (entry : Entry) (u : Nat) (subs : List LayerType) (c : LayerType)
    (req : PyDict) (resp : RespV) (st : SysState)
    (req' : PyDict) (st' : SysState) (log' : List Event) (resp' : RespV)
    (h : runStack entry subs req resp st = ⟨req', st', log', .ok resp'⟩) :
    C7Prop env entry u subs c req resp st req' st' log' resp' :=
  ⟨rfl, runStack_snoc entry subs c req resp st req' st' log' resp' h, rfl⟩

/-- Closed check of claim C7 at a concrete input. -/
theorem claim_C7_witness :
    C7Prop sampleEnv sampleEntry 0 [LayerType.viewMW] LayerType.authMW reqB Option.none
      SysState.initial reqB SysState.initial [Event.enter LayerType.viewMW] Option.none :=
  claim_C7 sampleEnv sampleEntry 0 [LayerType.viewMW] LayerType.authMW reqB Option.none
    SysState.initial reqB SysState.initial [Event.enter LayerType.viewMW] Option.none rfl

/-- The identity layer's delegation policy, claim C8: on a request asking
for authentication it copies the token value into the response under the
configured header and returns it at once — no entry-point re-entry, no
router call; on any other request it performs the inherited stacked
delegation over its single sub-layer, the view layer. -/
def C8Prop (env : Env) (entry : Entry) (u : Nat) (req1 r0 : PyDict) (st1 : SysState)
    (tok : PyVal) (req2 : PyDict) (resp2 : RespV) (st2 : SysState) : Prop :=
  (delegateImpl env entry ⟨LayerType.identityMW, u⟩ req1 (some r0) st1 =
     ⟨req1, st1, [Event.delegateCall LayerType.identityMW],
      .ok (some (setA r0 env.tokenHeader tok))⟩ ∧
   Event.routeCall ∉ (delegateImpl env entry ⟨LayerType.identityMW, u⟩ req1 (some r0) st1).log ∧
   ∀ c, Event.enter c ∉ (delegateImpl env entry ⟨LayerType.identityMW, u⟩ req1 (some r0) st1).log) ∧
  delegateImpl env entry ⟨LayerType.identityMW, u⟩ req2 resp2 st2 =
    ⟨(runStack entry [LayerType.viewMW] req2 resp2 st2).req,
     (runStack entry [LayerType.viewMW] req2 resp2 st2).st,
     Event.delegateCall LayerType.identityMW ::
       (runStack entry [LayerType.viewMW] req2 resp2 st2).log,
     (runStack entry [LayerType.viewMW] req2 resp2 st2).res⟩

/-- C8: when `is_requesting_authentication` holds, the identity layer's
`delegate` copies the token value from the request's token-header field
into the same response field and returns immediately, never re-entering the
chain and never reaching the router; otherwise it falls through to the
inherited stacked delegation over the view layer. -/
theorem claim_C8 (env : Env) (entry : Entry) (u : Nat) (req1 r0 : PyDict) (st1 : SysState)
    (v tok : PyVal) (req2 : PyDict) (resp2 : RespV) (st2 : SysState)
    (h1 : env.isRequestingAuth req1 = true)
    (h2 : getA req1 env.tokenHeader = some v)
    (h3 : v.index 1 = some tok)
    (h4 : env.isRequestingAuth req2 = false) :
    C8Prop env entry u req1 r0 st1 tok req2 resp2 st2 := by
  have he : delegateImpl env entry ⟨LayerType.identityMW, u⟩ req1 (some r0) st1 =
      ⟨req1, st1, [Event.delegateCall LayerType.identityMW],
       .ok (some (setA r0 env.tokenHeader tok))⟩ := by
    simp [delegateImpl, h1, h2, h3]
  have hst : getStackedMW LayerType.identityMW = [LayerType.viewMW] := rfl
  refine ⟨⟨he, ?_, ?_⟩, ?_⟩
  · rw [he]; simp
  · intro c; rw [he]; simp
  · simp only [delegateImpl, h4, Bool.false_eq_true, if_false, hst]

/-- Closed check of claim C8 at a concrete input. -/
theorem claim_C8_witness :
    C8Prop sampleEnv sampleEntry 0 reqA [] SysState.initial (PyVal.str "abc123")
      reqB Option.none SysState.initial :=
  claim_C8 sampleEnv sampleEntry 0 reqA [] SysState.initial
    (PyVal.pair (PyVal.str "Token") (PyVal.str "abc123")) (PyVal.str "abc123")
    reqB Option.none SysState.initial rfl rfl rfl rfl

theorem entersOf_append (a b : List Event) : entersOf (a ++ b) = entersOf a ++ entersOf b := by
  simp [entersOf, List.filterMap_append]

theorem createdUidsOf_append (a b : List Event) (c : LayerType) :
    createdUidsOf (a ++ b) c = createdUidsOf a c ++ createdUidsOf b c := by
  simp [createdUidsOf, List.filterMap_append]

theorem initRunsOf_append (a b : List Event) (c : LayerType) :
    initRunsOf (a ++ b) c = initRunsOf a c + initRunsOf b c := by
  simp [initRunsOf, List.filterMap_append]

theorem authorize_log_calls (env : Env) (self : MWInstance) (st : SysState) (req : PyDict) :
    ∀ e ∈ (AuthMiddleWare.authorize env self st req).1,
      ∃ a cd dt, e = Event.authorizeCall a cd dt :=
  authorizeGo_log_calls env self.ofClass req (getAuthEntries st self.ofClass)

/-- One invocation extends the request's execution trace by exactly the
`enter` events of its log, in order (never truncating or reordering). -/
def StackExtends (out : StepResult) (req : PyDict) : Prop :=
  stackOf out.req = stackOf req ++ entersOf out.log

theorem runStack_stackExtends (entry : Entry)
    (hent : ∀ c req resp st, StackExtends (entry c req resp st) req) :
    ∀ (subs : List LayerType) (req : PyDict) (resp : RespV) (st : SysState),
      StackExtends (runStack entry subs req resp st) req := by
  intro subs
  induction subs with
  | nil => intro req resp st; simp [StackExtends, runStack, entersOf]
  | cons s tl ih =>
    intro req resp st
    cases hres : (entry s req resp st).res with
    | error e =>
      rw [StackExtends, runStack_cons_err entry s tl req resp st e hres]
      exact hent s req resp st
    | ok u =>
      rw [StackExtends, runStack_cons_ok entry s tl req resp st u hres]
      have h1 := hent s req resp st
      have h2 := ih (entry s req resp st).req u (entry s req resp st).st
      rw [StackExtends] at h1 h2
      simp only [entersOf_append]
      rw [h2, h1, List.append_assoc]

theorem delegateImpl_stackExtends (env : Env) (entry : Entry) (self : MWInstance)
    (hent : ∀ c req resp st, StackExtends (entry c req resp st) req) :
    ∀ (req : PyDict) (resp : RespV) (st : SysState),
      StackExtends (delegateImpl env entry self req resp st) req := by
  intro req resp st
  cases hcl : self.ofClass with
  | authMW => simp [StackExtends, delegateImpl, hcl, entersOf]
  | viewMW => simp [StackExtends, delegateImpl, hcl, entersOf]
  | stackedMW =>
    have hr := runStack_stackExtends entry hent (getStackedMW LayerType.stackedMW) req resp st
    rw [StackExtends] at hr ⊢
    simp only [delegateImpl, hcl]
    simpa [entersOf, List.filterMap_cons] using hr
  | identityMW =>
    by_cases hq : env.isRequestingAuth req
    · simp only [delegateImpl, hcl, if_pos hq]
      split
      · simp [StackExtends, entersOf]
      · split
        · simp [StackExtends, entersOf]
        · split
          · simp [StackExtends, entersOf]
          · simp [StackExtends, entersOf]
    · have hr := runStack_stackExtends entry hent (getStackedMW LayerType.identityMW) req resp st
      rw [StackExtends] at hr ⊢
      simp only [delegateImpl, hcl, if_neg hq]
      simpa [entersOf, List.filterMap_cons] using hr

theorem afterInstance_stackSpec (env : Env) (entry : Entry) (i : MWInstance)
    (req : PyDict) (resp : RespV) (st : SysState) (pre : List Event)
    (hent : ∀ c r rp s, StackExtends (entry c r rp s) r) :
    ∃ tail, (afterInstance env entry i req resp st pre).log = pre ++ tail ∧
      stackOf (afterInstance env entry i req resp st pre).req = stackOf req ++ entersOf tail := by
  simp only [afterInstance]
  split
  · refine ⟨(AuthMiddleWare.authorize env i st req).1, rfl, ?_⟩
    rw [entersOf_of_calls (authorize_log_calls env i st req)]
    simp
  · have hd := delegateImpl_stackExtends env entry i hent req resp st
    rw [StackExtends] at hd
    refine ⟨(AuthMiddleWare.authorize env i st req).1 ++
      Event.processCall i.ofClass :: (delegateImpl env entry i req resp st).log,
      by simp [List.append_assoc], ?_⟩
    rw [hd, entersOf_append, entersOf_of_calls (authorize_log_calls env i st req)]
    simp [entersOf, List.filterMap_cons]

theorem processRequest_stackExtends (env : Env) :
    ∀ (fuel : Nat) (cls : LayerType) (req : PyDict) (resp : RespV) (st : SysState),
      StackExtends (processRequest env fuel cls req resp st) req := by
  intro fuel
  induction fuel with
  | zero => intro cls req resp st; simp [StackExtends, processRequest, entersOf]
  | succ n ih =>
    intro cls req resp st
    rw [StackExtends]
    simp only [processRequest]
    split
    · split <;> simp [stackOf_appendParam, entersOf]
    · split
      · rename_i i _
        obtain ⟨tail, hlog, hreq⟩ := afterInstance_stackSpec env
          (fun c r rp s => processRequest env n c r rp s) i
          (RequestOp.appendParam req "middleware_stack" cls) resp _ [Event.enter cls]
          (fun c r rp s => ih c r rp s)
        rw [hlog, hreq, entersOf_append, stackOf_appendParam]
        simp [entersOf, List.append_assoc]
      · split
        · simp [stackOf_appendParam, entersOf]
        · rename_i heq
          obtain ⟨tail, hlog, hreq⟩ := afterInstance_stackSpec env
            (fun c r rp s => processRequest env n c r rp s) _
            (RequestOp.appendParam req "middleware_stack" cls) resp _
            [Event.enter cls, Event.created cls _, Event.initRun cls]
            (fun c r rp s => ih c r rp s)
          rw [hlog, hreq, entersOf_append, stackOf_appendParam]
          simp [entersOf, List.append_assoc]

theorem processRequest_log_head (env : Env) (fuel : Nat) (cls : LayerType)
    (req : PyDict) (resp : RespV) (st : SysState) :
    ((processRequest env (fuel+1) cls req resp st).log).head? = some (Event.enter cls) := by
  simp only [processRequest]
  split
  · split <;> rfl
  · split
    · simp only [afterInstance]
      split <;> rfl
    · split
      · rfl
      · simp only [afterInstance]
        split <;> rfl

/-- C2: every invocation of the entry point appends exactly one entry, the
invoked layer type, to the request's execution trace (its own log starts
with its `enter` event), and the final trace is the initial trace extended
by the entered layers in order — even when the invocation fails; nothing is
ever truncated or reordered. -/
theorem claim_C2 (env : Env) (fuel : Nat) (cls : LayerType) (req : PyDict) (resp : RespV)
    (st : SysState) :
    ∃ rest, (processRequest env (fuel+1) cls req resp st).log = Event.enter cls :: rest ∧
      stackOf (processRequest env (fuel+1) cls req resp st).req =
        stackOf req ++ cls :: entersOf rest := by
  have hh := processRequest_log_head env fuel cls req resp st
  have hst := processRequest_stackExtends env (fuel+1) cls req resp st
  rw [StackExtends] at hst
  cases hl : (processRequest env (fuel+1) cls req resp st).log with
  | nil => rw [hl] at hh; simp at hh
  | cons hd tlg =>
    rw [hl] at hh
    simp only [List.head?_cons, Option.some.injEq] at hh
    subst hh
    refine ⟨tlg, rfl, ?_⟩
    rw [hl] at hst
    simpa [entersOf, List.filterMap_cons] using hst

/-- A run keeps an already-cached singleton of class `d` untouched: the
`_instance` attribute of `d` still holds the same instance afterwards, and
the run neither created an instance of `d` nor ran `_init` for `d`. -/
def KeepsInst (d : LayerType) (j : MWInstance) (out : StepResult) : Prop :=
  getA out.st.instAttr d = some (some j) ∧
  createdUidsOf out.log d = [] ∧ initRunsOf out.log d = 0

theorem mem_mro_self (c : LayerType) : c ∈ mro c := by
  cases c <;> simp [mro]

theorem runStack_keeps (entry : Entry) (d : LayerType) (j : MWInstance)
    (hent : ∀ c r rp s, getA s.instAttr d = some (some j) → KeepsInst d j (entry c r rp s)) :
    ∀ (subs : List LayerType) (req : PyDict) (resp : RespV) (st : SysState),
      getA st.instAttr d = some (some j) → KeepsInst d j (runStack entry subs req resp st) := by
  intro subs
  induction subs with
  | nil =>
    intro req resp st hst
    exact ⟨hst, rfl, rfl⟩
  | cons s tl ih =>
    intro req resp st hst
    cases hres : (entry s req resp st).res with
    | error e =>
      rw [runStack_cons_err entry s tl req resp st e hres]
      exact hent s req resp st hst
    | ok u =>
      rw [runStack_cons_ok entry s tl req resp st u hres]
      obtain ⟨k1, k2, k3⟩ := hent s req resp st hst
      obtain ⟨m1, m2, m3⟩ := ih (entry s req resp st).req u (entry s req resp st).st k1
      exact ⟨m1, by simp [createdUidsOf_append, k2, m2], by simp [initRunsOf_append, k3, m3]⟩

theorem createdUidsOf_cons_delegateCall (c : LayerType) (l : List Event) (d : LayerType) :
    createdUidsOf (Event.delegateCall c :: l) d = createdUidsOf l d := rfl

theorem initRunsOf_cons_delegateCall (c : LayerType) (l : List Event) (d : LayerType) :
    initRunsOf (Event.delegateCall c :: l) d = initRunsOf l d := rfl

theorem createdUidsOf_cons_processCall (c : LayerType) (l : List Event) (d : LayerType) :
    createdUidsOf (Event.processCall c :: l) d = createdUidsOf l d := rfl

theorem initRunsOf_cons_processCall (c : LayerType) (l : List Event) (d : LayerType) :
    initRunsOf (Event.processCall c :: l) d = initRunsOf l d := rfl

theorem delegateImpl_keeps (env : Env) (entry : Entry) (self : MWInstance)
    (d : LayerType) (j : MWInstance)
    (hent : ∀ c r rp s, getA s.instAttr d = some (some j) → KeepsInst d j (entry c r rp s)) :
    ∀ (req : PyDict) (resp : RespV) (st : SysState),
      getA st.instAttr d = some (some j) → KeepsInst d j (delegateImpl env entry self req resp st) := by
  intro req resp st hst
  cases hcl : self.ofClass with
  | authMW =>
    have he : delegateImpl env entry self req resp st =
        ⟨req, st, [Event.delegateCall LayerType.authMW], .ok Option.none⟩ := by
      simp [delegateImpl, hcl]
    rw [he]
    exact ⟨hst, rfl, rfl⟩
  | viewMW =>
    have he : delegateImpl env entry self req resp st =
        ⟨req, st, [Event.delegateCall LayerType.viewMW, Event.routeCall],
         .ok (env.routeFn req resp)⟩ := by
      simp [delegateImpl, hcl]
    rw [he]
    exact ⟨hst, rfl, rfl⟩
  | stackedMW =>
    obtain ⟨m1, m2, m3⟩ :=
      runStack_keeps entry d j hent (getStackedMW LayerType.stackedMW) req resp st hst
    have he : delegateImpl env entry self req resp st =
        ⟨(runStack entry (getStackedMW LayerType.stackedMW) req resp st).req,
         (runStack entry (getStackedMW LayerType.stackedMW) req resp st).st,
         Event.delegateCall LayerType.stackedMW ::
           (runStack entry (getStackedMW LayerType.stackedMW) req resp st).log,
         (runStack entry (getStackedMW LayerType.stackedMW) req resp st).res⟩ := by
      simp [delegateImpl, hcl]
    rw [he]
    exact ⟨m1, by rw [createdUidsOf_cons_delegateCall, m2],
      by rw [initRunsOf_cons_delegateCall, m3]⟩
  | identityMW =>
    by_cases hq : env.isRequestingAuth req
    · simp only [delegateImpl, hcl, if_pos hq]
      split
      · exact ⟨hst, rfl, rfl⟩
      · split
        · exact ⟨hst, rfl, rfl⟩
        · split
          · exact ⟨hst, rfl, rfl⟩
          · exact ⟨hst, rfl, rfl⟩
    · obtain ⟨m1, m2, m3⟩ :=
        runStack_keeps entry d j hent (getStackedMW LayerType.identityMW) req resp st hst
      have he : delegateImpl env entry self req resp st =
          ⟨(runStack entry (getStackedMW LayerType.identityMW) req resp st).req,
           (runStack entry (getStackedMW LayerType.identityMW) req resp st).st,
           Event.delegateCall LayerType.identityMW ::
             (runStack entry (getStackedMW LayerType.identityMW) req resp st).log,
           (runStack entry (getStackedMW LayerType.identityMW) req resp st).res⟩ := by
        simp [delegateImpl, hcl, if_neg hq]
      rw [he]
      exact ⟨m1, by rw [createdUidsOf_cons_delegateCall, m2],
        by rw [initRunsOf_cons_delegateCall, m3]⟩

theorem afterInstance_keeps (env : Env) (entry : Entry) (i : MWInstance)
    (req : PyDict) (resp : RespV) (st : SysState) (pre : List Event)
    (d : LayerType) (j : MWInstance)
    (hent : ∀ c r rp s, getA s.instAttr d = some (some j) → KeepsInst d j (entry c r rp s))
    (hst : getA st.instAttr d = some (some j))
    (hpre1 : createdUidsOf pre d = []) (hpre2 : initRunsOf pre d = 0) :
    KeepsInst d j (afterInstance env entry i req resp st pre) := by
  simp only [afterInstance]
  split
  · refine ⟨hst, ?_, ?_⟩
    · rw [createdUidsOf_append, hpre1,
        createdUidsOf_of_calls d (authorize_log_calls env i st req)]
      rfl
    · rw [initRunsOf_append, hpre2,
        initRunsOf_of_calls d (authorize_log_calls env i st req)]
  · obtain ⟨m1, m2, m3⟩ := delegateImpl_keeps env entry i d j hent req resp st hst
    refine ⟨m1, ?_, ?_⟩
    · rw [createdUidsOf_append, createdUidsOf_append, createdUidsOf_cons_processCall,
        hpre1, createdUidsOf_of_calls d (authorize_log_calls env i st req), m2]
      rfl
    · rw [initRunsOf_append, initRunsOf_append, initRunsOf_cons_processCall,
        hpre2, initRunsOf_of_calls d (authorize_log_calls env i st req), m3]

theorem processRequest_keeps (env : Env) (d : LayerType) (j : MWInstance) :
    ∀ (fuel : Nat) (cls : LayerType) (req : PyDict) (resp : RespV) (st : SysState),
      getA st.instAttr d = some (some j) →
      KeepsInst d j (processRequest env fuel cls req resp st) := by
  intro fuel
  induction fuel with
  | zero => intro cls req resp st hst; exact ⟨hst, rfl, rfl⟩
  | succ n ih =>
    intro cls req resp st hst
    have hst1 : getA (if hasattrInstance st cls then st else setInstAttr st cls Option.none).instAttr d
        = some (some j) := by
      split
      · exact hst
      · rename_i hh
        have hne : cls ≠ d := by
          intro he
          subst he
          exact hh (by
            simp only [hasattrInstance, List.any_eq_true]
            exact ⟨cls, mem_mro_self cls, by simp [hst]⟩)
        simpa [setInstAttr, getA_setA_ne _ cls d _ hne] using hst
    simp only [processRequest]
    split
    · split <;> exact ⟨hst, rfl, rfl⟩
    · split
      · exact afterInstance_keeps env _ _ _ resp _ [Event.enter cls] d j
          (fun c r rp s h => ih c r rp s h) hst1 rfl rfl
      · rename_i hnotinst
        have hne : cls ≠ d := by
          intro he
          subst he
          obtain ⟨t, ht⟩ : ∃ t, mro cls = cls :: t := by cases cls <;> exact ⟨_, rfl⟩
          exact hnotinst j (by simp [getattrInstance, ht, List.findSome?, hst1])
        have hst2 : getA (setA (if hasattrInstance st cls then st
            else setInstAttr st cls Option.none).instAttr cls
              (some ⟨cls, (if hasattrInstance st cls then st
                else setInstAttr st cls Option.none).nextUid⟩)) d = some (some j) := by
          rw [getA_setA_ne _ cls d _ hne]
          exact hst1
        split
        · exact ⟨hst2, by simp [createdUidsOf, hne], by simp [initRunsOf, hne]⟩
        · exact afterInstance_keeps env _ _ _ resp _ _ d j
            (fun c r rp s h => ih c r rp s h) hst2
            (by simp [createdUidsOf, hne]) (by simp [initRunsOf, hne])

/-- The class-level state right after the first entry into `cls` from a
fresh process has created and cached the singleton: `cls` holds instance 0
and its `AUTH_CLASSES` list has been instantiated in place. -/
def stAfterFirstCreate (cls : LayerType) : SysState :=
  { instAttr := [(cls, some ⟨cls, 0⟩)],
    authLists := setA SysState.initial.authLists (authClassesOwner cls)
      (initAuthEntriesGo (getAuthEntries SysState.initial cls)).1,
    nextUid := 1 }

theorem processRequest_initial_eq (env : Env) (fuel : Nat) (cls : LayerType)
    (req : PyDict) (resp : RespV) :
    processRequest env (fuel+1) cls req resp SysState.initial =
      afterInstance env (fun c r rp s => processRequest env fuel c r rp s) ⟨cls, 0⟩
        (RequestOp.appendParam req "middleware_stack" cls) resp (stAfterFirstCreate cls)
        [Event.enter cls, Event.created cls 0, Event.initRun cls] := by
  cases cls <;> rfl

/-- C6: invoking the entry point twice on the same layer type from a fresh
process creates the singleton instance and runs `_init` exactly once, on
the first invocation; the second invocation reuses the cached instance and
creates nothing, and the cache still holds the same instance afterwards. -/
theorem claim_C6 (env : Env) (fuel : Nat) (cls : LayerType) (req1 req2 : PyDict)
    (resp1 resp2 : RespV) :
    ∃ u,
      createdUidsOf (processRequest env (fuel+1) cls req1 resp1 SysState.initial).log cls
        = [u] ∧
      initRunsOf (processRequest env (fuel+1) cls req1 resp1 SysState.initial).log cls = 1 ∧
      getA (processRequest env (fuel+1) cls req1 resp1 SysState.initial).st.instAttr cls
        = some (some ⟨cls, u⟩) ∧
      createdUidsOf (processRequest env (fuel+1) cls req2 resp2
        (processRequest env (fuel+1) cls req1 resp1 SysState.initial).st).log cls = [] ∧
      initRunsOf (processRequest env (fuel+1) cls req2 resp2
        (processRequest env (fuel+1) cls req1 resp1 SysState.initial).st).log cls = 0 ∧
      getA (processRequest env (fuel+1) cls req2 resp2
        (processRequest env (fuel+1) cls req1 resp1 SysState.initial).st).st.instAttr cls
        = some (some ⟨cls, u⟩) := by
  refine ⟨0, ?_⟩
  have h1 : createdUidsOf (processRequest env (fuel+1) cls req1 resp1 SysState.initial).log cls
        = [0] ∧
      initRunsOf (processRequest env (fuel+1) cls req1 resp1 SysState.initial).log cls = 1 ∧
      getA (processRequest env (fuel+1) cls req1 resp1 SysState.initial).st.instAttr cls
        = some (some ⟨cls, 0⟩) := by
    rw [processRequest_initial_eq env fuel cls req1 resp1]
    have hstC : getA (stAfterFirstCreate cls).instAttr cls
        = some (some (⟨cls, 0⟩ : MWInstance)) := by
      simp [stAfterFirstCreate, getA]
    have hcalls := authorize_log_calls env (⟨cls, 0⟩ : MWInstance) (stAfterFirstCreate cls)
      (RequestOp.appendParam req1 "middleware_stack" cls)
    simp only [afterInstance]
    split
    · refine ⟨?_, ?_, hstC⟩
      · rw [createdUidsOf_append, createdUidsOf_of_calls cls hcalls]
        simp [createdUidsOf]
      · rw [initRunsOf_append, initRunsOf_of_calls cls hcalls]
        simp [initRunsOf]
    · obtain ⟨m1, m2, m3⟩ := delegateImpl_keeps env
        (fun c r rp s => processRequest env fuel c r rp s) ⟨cls, 0⟩ cls ⟨cls, 0⟩
        (fun c r rp s h => processRequest_keeps env cls ⟨cls, 0⟩ fuel c r rp s h)
        (RequestOp.appendParam req1 "middleware_stack" cls) resp1 (stAfterFirstCreate cls) hstC
      refine ⟨?_, ?_, m1⟩
      · rw [createdUidsOf_append, createdUidsOf_append, createdUidsOf_cons_processCall,
          createdUidsOf_of_calls cls hcalls, m2]
        simp [createdUidsOf]
      · rw [initRunsOf_append, initRunsOf_append, initRunsOf_cons_processCall,
          initRunsOf_of_calls cls hcalls, m3]
        simp [initRunsOf]
  obtain ⟨c1, c2, c3⟩ := h1
  obtain ⟨k1, k2, k3⟩ := processRequest_keeps env cls ⟨cls, 0⟩ (fuel+1) cls req2 resp2
    (processRequest env (fuel+1) cls req1 resp1 SysState.initial).st c3
  exact ⟨c1, c2, c3, k2, k3, k1⟩

/-- The state of lines 49-50: ensure the `_instance` class attribute
exists (setting it to `None` on `cls` itself when no class along the MRO
has it). -/
def ensureSt (st : SysState) (cls : LayerType) : SysState :=
  if hasattrInstance st cls then st else setInstAttr st cls Option.none

end Middleware
